import Mathlib

/-!
Verification development for the datadog-logs dispatch core.

The definitions below are a shallow embedding of the Rust sources:

* src/logger/log.rs        — the DataDogLog record type;
* src/logger/logger.rs     — the DataDogLogger facade: construction, log(), Drop;
* src/logger/nonblocking.rs — the asynchronous dispatcher (logger_future and send).

Channels are embedded with flume semantics: a channel is a queue together
with an optional capacity and a connected flag; try_send fails with
Disconnected when the receiving side is gone and with Full when a bounded
queue is at capacity, leaving the queue unchanged in both cases.

The dispatcher loop is embedded as a function consuming a finite trace of
channel observations (a record became available, or the queue was observed
empty); exhaustion of the trace is the channel reporting Disconnected.  The
awaiting state entered after an idle flush (the peekable stream in the
source) is a mode flag: in that mode the next record obtained from the
channel is received and discarded, exactly as the source line
"let _ = peekable_logs.next().await" does.
-/

namespace DatadogLogs

/-- Embedding of struct DataDogLog, src/logger/log.rs lines 4-24.  The two
identifier-renamed fields trace_id and span_id serialize as dd.trace_id and
dd.span_id. -/
structure DataDogLog where
  message : String
  ddtags : Option String
  ddsource : String
  host : String
  service : String
  level : String
  trace_id : String
  span_id : String
  deriving DecidableEq, Repr

/-- Field names of struct DataDogLog as declared in src/logger/log.rs. -/
def dataDogLogStructFields : List String :=
  ["message", "ddtags", "ddsource", "host", "service", "level", "trace_id", "span_id"]

/-- Field names assigned by the struct literal inside DataDogLogger::log,
src/logger/logger.rs lines 126-133.  The literal stops at level: no
trace_id and no span_id field is initialized. -/
def logLiteralFields : List String :=
  ["message", "ddtags", "service", "host", "ddsource", "level"]

/-- Embedding of a flume channel as seen from one endpoint: the queued
items, the optional bound, and whether the opposite endpoint is alive. -/
structure Chan (α : Type) where
  cap : Option Nat
  queue : List α
  connected : Bool
  deriving DecidableEq, Repr

/-- The two failure cases of flume try_send. -/
inductive TrySendError where
  | full
  | disconnected
  deriving DecidableEq, Repr

/-- Display text of flume TrySendError, used because both enqueue paths in
logger.rs stringify the error with to_string. -/
def TrySendError.toText : TrySendError → String
  | .full => "sending on a full channel"
  | .disconnected => "sending on a closed channel"

/-- A bounded channel is full when its queue has reached the bound. -/
def Chan.isFull {α : Type} (c : Chan α) : Bool :=
  match c.cap with
  | some n => decide (n ≤ c.queue.length)
  | none => false

/-- Embedding of flume try_send: fails with Disconnected when the receiver
is gone, with Full when bounded and at capacity; otherwise enqueues at the
back.  On failure the queue is returned unchanged. -/
def Chan.trySend {α : Type} (c : Chan α) (a : α) : Chan α × Option TrySendError :=
  if !c.connected then (c, some .disconnected)
  else if c.isFull then (c, some .full)
  else ({ c with queue := c.queue ++ [a] }, none)

/-- Modelled from the spec: the configuration record (src/config.rs is not
among the provided sources).  Fields are exactly those read by logger.rs:
tags, service, hostname, source, enable_self_log,
messages_channel_capacity, matching section 6 of the specification. -/
structure DataDogConfig where
  tags : Option String
  service : Option String
  hostname : Option String
  source : String
  enable_self_log : Bool
  messages_channel_capacity : Option Nat
  deriving DecidableEq, Repr

/-- Modelled from the spec: the log level enumeration (src/logger/level.rs
is not among the provided sources).  logger.rs only calls to_string on it. -/
inductive DataDogLogLevel where
  | debug
  | info
  | warn
  | error
  deriving DecidableEq, Repr

/-- Display text of a level, used by the record construction in log(). -/
def DataDogLogLevel.toText : DataDogLogLevel → String
  | .debug => "DEBUG"
  | .info => "INFO"
  | .warn => "WARN"
  | .error => "ERROR"

/-- Embedding of the record literal built by DataDogLogger::log,
src/logger/logger.rs lines 126-133.  The literal assigns exactly six
fields; it has no trace_id and no span_id component, which is why this is a
separate type from DataDogLog (see the development of claim C9). -/
structure ConstructedLog where
  message : String
  ddtags : Option String
  service : String
  host : String
  ddsource : String
  level : String
  deriving DecidableEq, Repr

/-- The construction performed by DataDogLogger::log before the enqueue:
per-call message and level merged with configuration defaults, with absent
service and hostname replaced by the empty string (unwrap_or_default). -/
def mkLog (config : DataDogConfig) (message : String) (level : DataDogLogLevel) :
    ConstructedLog :=
  { message := message
    ddtags := config.tags
    service := config.service.getD ""
    host := config.hostname.getD ""
    ddsource := config.source
    level := level.toText }

/-- Embedding of struct DataDogLogger, src/logger/logger.rs lines 16-23.
The self-log queue lives in the sender endpoint; selflogrv only records
whether the read handle exists.  logger_handle records whether a dispatcher
thread join handle is held. -/
structure DataDogLogger where
  config : DataDogConfig
  logsender : Option (Chan ConstructedLog)
  selflogrv : Bool
  selflogsd : Option (Chan String)
  logger_handle : Bool
  deriving DecidableEq, Repr

/-- The self-log channel pair created by both constructors: a bounded
channel of capacity 100 when enable_self_log is set, otherwise absent. -/
def selfLogChan (enable : Bool) : Option (Chan String) :=
  if enable then some { cap := some 100, queue := [], connected := true } else none

/-- The messages channel created by both constructors: bounded when a
capacity is configured, unbounded otherwise. -/
def mkMessagesChan (capacity : Option Nat) : Chan ConstructedLog :=
  { cap := capacity, queue := [], connected := true }

/-- Embedding of DataDogLogger::blocking, src/logger/logger.rs lines 40-66:
builds the channels and spawns the dispatcher thread, so a join handle is
held. -/
def DataDogLogger.blocking (config : DataDogConfig) : DataDogLogger :=
  { config
    logsender := some (mkMessagesChan config.messages_channel_capacity)
    selflogrv := config.enable_self_log
    selflogsd := selfLogChan config.enable_self_log
    logger_handle := true }

/-- Embedding of DataDogLogger::non_blocking_cold, src/logger/logger.rs
lines 88-116: identical channel wiring, but the dispatcher is returned as a
future, so no thread join handle is held (logger_handle := false). -/
def DataDogLogger.non_blocking_cold (config : DataDogConfig) : DataDogLogger :=
  { config
    logsender := some (mkMessagesChan config.messages_channel_capacity)
    selflogrv := config.enable_self_log
    selflogsd := selfLogChan config.enable_self_log
    logger_handle := false }

/-- Embedding of DataDogLogger::log, src/logger/logger.rs lines 120-147.
The function is total: it returns the updated facade state and nothing
else, mirroring the source, which never blocks, never touches the network,
and never returns an error from log().  On try_send failure the stringified
error is offered to the self-log sender with try_send, its own failure
swallowed by unwrap_or_default. -/
def DataDogLogger.log (s : DataDogLogger) (message : String) (level : DataDogLogLevel) :
    DataDogLogger :=
  let entry := mkLog s.config message level
  match s.logsender with
  | none => s
  | some sender =>
      let res := sender.trySend entry
      match res.2 with
      | none => { s with logsender := some res.1 }
      | some e =>
          match s.selflogsd with
          | none => { s with logsender := some res.1 }
          | some sl =>
              { s with logsender := some res.1
                       selflogsd := some (sl.trySend e.toText).1 }

/-- Observable steps taken by Drop for DataDogLogger. -/
inductive DropAction where
  | closeProducerChannel
  | joinDispatcherThread
  deriving DecidableEq, Repr

/-- Embedding of the Drop impl, src/logger/logger.rs lines 150-160: take
and drop the producer sender (closing the channel), then, when a thread
handle is present, join it with the join result swallowed by
unwrap_or_default.  joinOk is the outcome the join would report; the result
does not depend on it, which is the formal shape of never panicking on a
failed join. -/
def DataDogLogger.dropRun (s : DataDogLogger) (joinOk : Bool) :
    DataDogLogger × List DropAction :=
  let s1 : DataDogLogger := { s with logsender := none }
  if s.logger_handle then
    ({ s1 with logger_handle := false },
      [DropAction.closeProducerChannel, DropAction.joinDispatcherThread])
  else (s1, [DropAction.closeProducerChannel])

/-- One observation of the producer channel by the dispatcher: either a
record was available, or the queue was seen empty while producers were
still alive.  Exhaustion of the observation trace is the channel reporting
Disconnected, which flume raises only once the queue is drained and every
sender is gone. -/
inductive ChanEvent where
  | msg (r : DataDogLog)
  | empty
  deriving DecidableEq, Repr

/-- Dispatcher state of logger_future, src/logger/nonblocking.rs.  store is
the Vec accumulating the batch.  deliveries records every invocation of
send, as the batch passed to client.send_async together with its success.
discarded records the messages received and dropped by the expression
"let _ = peekable_logs.next().await".  diags records the error strings
offered to the self-log channel.  attempts counts delivery attempts so that
the client can be an arbitrary per-attempt oracle.  lenHistory is a ghost
field recording store.len() at the end of every loop iteration; it changes
no behavior. -/
structure DispatchState where
  store : List DataDogLog
  deliveries : List (List DataDogLog × Bool)
  discarded : List DataDogLog
  diags : List String
  attempts : Nat
  lenHistory : List Nat
  deriving DecidableEq, Repr

/-- The dispatcher state at the start of logger_future: empty Vec, nothing
delivered, nothing discarded. -/
def initDispatch : DispatchState :=
  { store := [], deliveries := [], discarded := [], diags := [], attempts := 0,
    lenHistory := [] }

/-- Ghost step: append the current batch length to the iteration history. -/
def pushLen (st : DispatchState) : DispatchState :=
  { st with lenHistory := st.lenHistory ++ [st.store.length] }

/-- Embedding of the send function, src/logger/nonblocking.rs lines 49-60,
at the granularity the dispatch loop needs.  client gives the outcome of
client.send_async for the current attempt: none is Ok, some e is Err with
display text e.  On Ok the batch Vec is cleared; on Err it is left
untouched and, when the self-log sender exists, the error text is emitted
to it (the channel-capacity behavior of that emission is embedded
separately as sendAsyncSelfLog and send). -/
def sendStep (client : Nat → Option String) (selflogPresent : Bool)
    (st : DispatchState) : DispatchState :=
  match client st.attempts with
  | none =>
      { st with store := []
                deliveries := st.deliveries ++ [(st.store, true)]
                attempts := st.attempts + 1 }
  | some e =>
      { st with deliveries := st.deliveries ++ [(st.store, false)]
                diags := if selflogPresent then st.diags ++ [e] else st.diags
                attempts := st.attempts + 1 }

/-- The guarded flush shared by the Empty and Disconnected arms of
logger_future: send only when the batch Vec is non-empty. -/
def flushIfNonempty (client : Nat → Option String) (selflogPresent : Bool)
    (st : DispatchState) : DispatchState :=
  if st.store.isEmpty then st else sendStep client selflogPresent st

/-- Embedding of the loop of logger_future, src/logger/nonblocking.rs lines
14-46, consuming a finite observation trace.  awaiting=false is the top of
the loop at logs.try_recv():
  a record at batch length below 50 is pushed and the loop continues; a
  record at batch length 50 or more is pushed and the batch is sent;
  an Empty observation flushes a non-empty batch and then awaits the
  peekable stream (awaiting := true);
  trace exhaustion is TryRecvError::Disconnected: flush a non-empty batch
  and break.
awaiting=true is the dispatcher suspended in peekable_logs.next().await:
  the next record to arrive is received by that expression and discarded
  (the source binds it to the wildcard), after which the loop resumes;
  further Empty observations do not wake it; trace exhaustion makes next()
  yield None, the loop resumes, and try_recv reports Disconnected. -/
def runFrom (client : Nat → Option String) (selflogPresent : Bool)
    (awaiting : Bool) (st : DispatchState) (evs : List ChanEvent) : DispatchState :=
  match awaiting, evs with
  | false, [] => pushLen (flushIfNonempty client selflogPresent st)
  | false, ChanEvent.msg m :: rest =>
      let stp : DispatchState := { st with store := st.store ++ [m] }
      let st1 : DispatchState :=
        if st.store.length < 50 then stp else sendStep client selflogPresent stp
      runFrom client selflogPresent false (pushLen st1) rest
  | false, ChanEvent.empty :: rest =>
      runFrom client selflogPresent true
        (pushLen (flushIfNonempty client selflogPresent st)) rest
  | true, [] => pushLen (flushIfNonempty client selflogPresent st)
  | true, ChanEvent.msg m :: rest =>
      runFrom client selflogPresent false
        { st with discarded := st.discarded ++ [m] } rest
  | true, ChanEvent.empty :: rest =>
      runFrom client selflogPresent true st rest

/-- The records offered by the producer side, in enqueue order, of an
observation trace. -/
def arrivals : List ChanEvent → List DataDogLog
  | [] => []
  | ChanEvent.msg r :: rest => r :: arrivals rest
  | ChanEvent.empty :: rest => arrivals rest

/-- Concatenation, in order, of the batches of the successful delivery
attempts. -/
def successBatches : List (List DataDogLog × Bool) → List DataDogLog
  | [] => []
  | (b, true) :: ds => b ++ successBatches ds
  | (_, false) :: ds => successBatches ds

/-- A delivery oracle on which every attempt succeeds. -/
def alwaysOk : Nat → Option String := fun _ => none

/-- A delivery oracle on which every attempt fails with a fixed error. -/
def alwaysFail : Nat → Option String := fun _ => some "delivery failed"

/-- A concrete record used by concrete runs. -/
def sampleLog (msg : String) : DataDogLog :=
  { message := msg, ddtags := none, ddsource := "rust", host := "h",
    service := "svc", level := "INFO", trace_id := "t", span_id := "s" }

/-- A trace of n records arriving back to back with no idle observation. -/
def msgsN (n : Nat) : List ChanEvent :=
  List.replicate n (ChanEvent.msg (sampleLog "m"))

/-- Outcome of awaiting flume Sender::send_async on the self-log channel
when no concurrent consumer is draining it: the string is enqueued when
there is room; when the bounded queue is at capacity the future stays
pending, i.e. the dispatcher waits; when the receiver is gone the send
resolves to an error, which the source swallows with unwrap_or_default, so
the diagnostic is dropped. -/
inductive SelfLogDelivery where
  | enqueued (queue : List String)
  | awaitsCapacity
  | droppedDisconnected
  deriving DecidableEq, Repr

/-- Embedding of selflog.send_async(e.to_string()).await.unwrap_or_default()
from src/logger/nonblocking.rs line 55, with flume bounded-channel
semantics. -/
def sendAsyncSelfLog (ch : Chan String) (s : String) : SelfLogDelivery :=
  if !ch.connected then SelfLogDelivery.droppedDisconnected
  else if ch.isFull then SelfLogDelivery.awaitsCapacity
  else SelfLogDelivery.enqueued (ch.queue ++ [s])

/-- Result of one call of the send function: the batch Vec afterwards and
the interaction with the self-log channel, if any. -/
structure SendOutcome where
  logs : List DataDogLog
  selfLogAction : Option SelfLogDelivery
  deriving DecidableEq, Repr

/-- Channel-precise embedding of the send function,
src/logger/nonblocking.rs lines 49-60.  clientResult is the outcome of
client.send_async(&logs): none is Ok, some e is Err with display text e.
On Ok the batch is cleared and the self-log channel is not touched.  On Err
the batch is left as it was and, when the self-log sender exists, the error
text is sent with the awaiting send_async. -/
def send (clientResult : Option String) (logs : List DataDogLog)
    (selflog : Option (Chan String)) : SendOutcome :=
  match clientResult with
  | some e =>
      match selflog with
      | some ch => { logs := logs, selfLogAction := some (sendAsyncSelfLog ch e) }
      | none => { logs := logs, selfLogAction := none }
  | none => { logs := [], selfLogAction := none }

/-- A configuration with a capacity-2 bounded messages channel and
self-diagnostics enabled, for the concrete enqueue scenario of the
specification. -/
def cfgCap2 : DataDogConfig :=
  { tags := none, service := none, hostname := none, source := "rust",
    enable_self_log := true, messages_channel_capacity := some 2 }

/-- The facade after enqueuing A and then B on the capacity-2 channel. -/
def loggerAB : DataDogLogger :=
  ((DataDogLogger.blocking cfgCap2).log "A" DataDogLogLevel.info).log "B"
    DataDogLogLevel.info

/-- The messages channel holding the records for A and B, at capacity. -/
def chanAB : Chan ConstructedLog :=
  { cap := some 2,
    queue := [mkLog cfgCap2 "A" DataDogLogLevel.info,
      mkLog cfgCap2 "B" DataDogLogLevel.info],
    connected := true }

/-- A concrete record named A. -/
def logA : DataDogLog := sampleLog "A"

/-- A concrete record named B. -/
def logB : DataDogLog := sampleLog "B"

/-- The trace on which the idle wait swallows a record: A arrives, the
queue is seen empty once, B arrives, the producer side closes. -/
def traceC4 : List ChanEvent :=
  [ChanEvent.msg logA, ChanEvent.empty, ChanEvent.msg logB]

/-- A concrete trace for the ordering witness. -/
def traceC7 : List ChanEvent :=
  [ChanEvent.msg logA, ChanEvent.empty, ChanEvent.msg logB]

/-- A dispatcher state holding one accumulated record. -/
def stC6 : DispatchState := { initDispatch with store := [logA] }

/-- A self-log channel at its capacity of 100. -/
def fullSelfLog : Chan String :=
  { cap := some 100, queue := List.replicate 100 "diag", connected := true }

set_option maxRecDepth 10000

/-! Helper lemmas about the embedded operations. -/

theorem pushLen_store (st : DispatchState) : (pushLen st).store = st.store := rfl

theorem pushLen_deliveries (st : DispatchState) :
    (pushLen st).deliveries = st.deliveries := rfl

theorem pushLen_attempts (st : DispatchState) :
    (pushLen st).attempts = st.attempts := rfl

theorem sendStep_deliveries (c : Nat → Option String) (p : Bool) (st : DispatchState) :
    (sendStep c p st).deliveries
      = st.deliveries ++ [(st.store, (c st.attempts).isNone)] := by
  unfold sendStep
  cases c st.attempts <;> simp

theorem sendStep_store_ok (c : Nat → Option String) (p : Bool) (st : DispatchState)
    (h : c st.attempts = none) : (sendStep c p st).store = [] := by
  unfold sendStep
  rw [h]

theorem flushIfNonempty_deliveries (c : Nat → Option String) (p : Bool)
    (st : DispatchState) :
    ∃ t, (flushIfNonempty c p st).deliveries = st.deliveries ++ t := by
  unfold flushIfNonempty
  split
  · exact ⟨[], by simp⟩
  · exact ⟨_, sendStep_deliveries c p st⟩

theorem runFrom_deliveries_mono (c : Nat → Option String) (p : Bool) :
    ∀ (evs : List ChanEvent) (aw : Bool) (st : DispatchState),
      ∃ t, (runFrom c p aw st evs).deliveries = st.deliveries ++ t := by
  intro evs
  induction evs with
  | nil =>
      intro aw st
      obtain ⟨t, ht⟩ := flushIfNonempty_deliveries c p st
      cases aw <;> exact ⟨t, by simpa [runFrom, pushLen_deliveries] using ht⟩
  | cons e rest ih =>
      intro aw st
      cases aw with
      | false =>
          cases e with
          | msg m =>
              by_cases h : st.store.length < 50
              · obtain ⟨t, ht⟩ := ih false (pushLen { st with store := st.store ++ [m] })
                refine ⟨t, ?_⟩
                simpa [runFrom, h, pushLen_deliveries] using ht
              · obtain ⟨t, ht⟩ :=
                  ih false (pushLen (sendStep c p { st with store := st.store ++ [m] }))
                refine ⟨(st.store ++ [m],
                  (c st.attempts).isNone) :: t, ?_⟩
                rw [show runFrom c p false st (ChanEvent.msg m :: rest)
                  = runFrom c p false
                      (pushLen (sendStep c p { st with store := st.store ++ [m] })) rest
                  from by simp [runFrom, h]]
                rw [ht, pushLen_deliveries, sendStep_deliveries]
                simp
          | empty =>
              obtain ⟨t, ht⟩ := flushIfNonempty_deliveries c p st
              obtain ⟨t2, ht2⟩ := ih true (pushLen (flushIfNonempty c p st))
              refine ⟨t ++ t2, ?_⟩
              rw [show runFrom c p false st (ChanEvent.empty :: rest)
                = runFrom c p true (pushLen (flushIfNonempty c p st)) rest from rfl]
              rw [ht2, pushLen_deliveries, ht, List.append_assoc]
      | true =>
          cases e with
          | msg m =>
              obtain ⟨t, ht⟩ := ih false { st with discarded := st.discarded ++ [m] }
              exact ⟨t, by simpa [runFrom] using ht⟩
          | empty =>
              obtain ⟨t, ht⟩ := ih true st
              exact ⟨t, by simpa [runFrom] using ht⟩

theorem sendStep_lenHistory (c : Nat → Option String) (p : Bool) (st : DispatchState) :
    (sendStep c p st).lenHistory = st.lenHistory := by
  unfold sendStep
  cases c st.attempts <;> simp

theorem flushIfNonempty_lenHistory (c : Nat → Option String) (p : Bool)
    (st : DispatchState) :
    (flushIfNonempty c p st).lenHistory = st.lenHistory := by
  unfold flushIfNonempty
  split
  · rfl
  · exact sendStep_lenHistory c p st

theorem flushIfNonempty_ok_store (p : Bool) (st : DispatchState) :
    (flushIfNonempty alwaysOk p st).store = [] ∨ flushIfNonempty alwaysOk p st = st := by
  unfold flushIfNonempty
  split
  · exact Or.inr rfl
  · exact Or.inl (sendStep_store_ok _ _ _ rfl)

theorem runFrom_feed (c : Nat → Option String) (p : Bool) :
    ∀ (rs : List DataDogLog) (st : DispatchState) (rest : List ChanEvent),
      st.store.length + rs.length ≤ 50 →
      ∃ hist, runFrom c p false st (List.map ChanEvent.msg rs ++ rest)
        = runFrom c p false { st with store := st.store ++ rs, lenHistory := hist } rest := by
  intro rs
  induction rs with
  | nil =>
      intro st rest h
      exact ⟨st.lenHistory, by simp⟩
  | cons r rs2 ih =>
      intro st rest h
      have hlen : st.store.length + rs2.length + 1 ≤ 50 := by
        simpa [Nat.add_comm, Nat.add_left_comm, Nat.add_assoc] using h
      have hlt : st.store.length < 50 := by omega
      have step : runFrom c p false st (List.map ChanEvent.msg (r :: rs2) ++ rest)
          = runFrom c p false (pushLen { st with store := st.store ++ [r] })
              (List.map ChanEvent.msg rs2 ++ rest) := by
        simp [runFrom, hlt]
      obtain ⟨hist, hh⟩ :=
        ih (pushLen { st with store := st.store ++ [r] }) rest
          (by simp [pushLen]; omega)
      refine ⟨hist, ?_⟩
      rw [step, hh]
      congr 1
      cases st
      simp [pushLen]

theorem runFrom_lenHistory_inv (p : Bool) :
    ∀ (evs : List ChanEvent) (aw : Bool) (st : DispatchState),
      st.store.length ≤ 50 → (∀ n ∈ st.lenHistory, n ≤ 50) →
      ∀ n ∈ (runFrom alwaysOk p aw st evs).lenHistory, n ≤ 50 := by
  intro evs
  induction evs with
  | nil =>
      intro aw st hs hh n hn
      have hflush : (flushIfNonempty alwaysOk p st).store.length ≤ 50 := by
        rcases flushIfNonempty_ok_store p st with h | h
        · rw [h]; exact Nat.zero_le 50
        · rw [h]; exact hs
      cases aw <;>
        · simp only [runFrom, pushLen, flushIfNonempty_lenHistory, List.mem_append,
            List.mem_singleton] at hn
          rcases hn with hn | hn
          · exact hh n hn
          · omega
  | cons e rest ih =>
      intro aw st hs hh
      cases aw with
      | false =>
          cases e with
          | msg m =>
              by_cases hlt : st.store.length < 50
              · have : runFrom alwaysOk p false st (ChanEvent.msg m :: rest)
                    = runFrom alwaysOk p false
                        (pushLen { st with store := st.store ++ [m] }) rest := by
                  simp [runFrom, hlt]
                rw [this]
                refine ih false _ (by simp [pushLen]; omega) ?_
                intro n hn
                simp only [pushLen, List.mem_append, List.mem_singleton] at hn
                rcases hn with hn | hn
                · exact hh n hn
                · simp at hn; omega
              · have : runFrom alwaysOk p false st (ChanEvent.msg m :: rest)
                    = runFrom alwaysOk p false
                        (pushLen (sendStep alwaysOk p { st with store := st.store ++ [m] }))
                        rest := by
                  simp [runFrom, hlt]
                rw [this]
                have hz : (sendStep alwaysOk p { st with store := st.store ++ [m] }).store = [] :=
                  sendStep_store_ok _ _ _ rfl
                refine ih false _ (by simp [pushLen, hz]) ?_
                intro n hn
                simp only [pushLen, hz, sendStep_lenHistory, List.length_nil,
                  List.mem_append, List.mem_singleton] at hn
                rcases hn with hn | hn
                · exact hh n hn
                · omega
          | empty =>
              have : runFrom alwaysOk p false st (ChanEvent.empty :: rest)
                  = runFrom alwaysOk p true
                      (pushLen (flushIfNonempty alwaysOk p st)) rest := rfl
              rw [this]
              have hflush : (flushIfNonempty alwaysOk p st).store.length ≤ 50 := by
                rcases flushIfNonempty_ok_store p st with h | h
                · rw [h]; exact Nat.zero_le 50
                · rw [h]; exact hs
              refine ih true _ (by simpa [pushLen] using hflush) ?_
              intro n hn
              simp only [pushLen, flushIfNonempty_lenHistory, List.mem_append,
                List.mem_singleton] at hn
              rcases hn with hn | hn
              · exact hh n hn
              · omega
      | true =>
          cases e with
          | msg m =>
              exact ih false { st with discarded := st.discarded ++ [m] } hs hh
          | empty => exact ih true st hs hh

theorem successBatches_append (ds es : List (List DataDogLog × Bool)) :
    successBatches (ds ++ es) = successBatches ds ++ successBatches es := by
  induction ds with
  | nil => rfl
  | cons d ds2 ih =>
      obtain ⟨b, s⟩ := d
      cases s <;> simp [successBatches, ih]

theorem sendStep_sublist (c : Nat → Option String) (p : Bool) (st : DispatchState)
    (pre : List DataDogLog)
    (h1 : List.Sublist (successBatches st.deliveries ++ st.store) pre)
    (h2 : ∀ d ∈ st.deliveries, List.Sublist d.1 pre) :
    List.Sublist (successBatches (sendStep c p st).deliveries ++ (sendStep c p st).store) pre
    ∧ ∀ d ∈ (sendStep c p st).deliveries, List.Sublist d.1 pre := by
  have hstore : List.Sublist st.store pre :=
    (List.sublist_append_right (successBatches st.deliveries) st.store).trans h1
  unfold sendStep
  cases hc : c st.attempts with
  | none =>
      refine ⟨?_, ?_⟩
      · simpa [successBatches_append, successBatches] using h1
      · intro d hd
        simp only [List.mem_append, List.mem_singleton] at hd
        rcases hd with hd | hd
        · exact h2 d hd
        · rw [hd]; exact hstore
  | some e =>
      refine ⟨?_, ?_⟩
      · simpa [successBatches_append, successBatches] using h1
      · intro d hd
        simp only [List.mem_append, List.mem_singleton] at hd
        rcases hd with hd | hd
        · exact h2 d hd
        · rw [hd]; exact hstore

theorem flushIfNonempty_sublist (c : Nat → Option String) (p : Bool) (st : DispatchState)
    (pre : List DataDogLog)
    (h1 : List.Sublist (successBatches st.deliveries ++ st.store) pre)
    (h2 : ∀ d ∈ st.deliveries, List.Sublist d.1 pre) :
    List.Sublist (successBatches (flushIfNonempty c p st).deliveries
        ++ (flushIfNonempty c p st).store) pre
    ∧ ∀ d ∈ (flushIfNonempty c p st).deliveries, List.Sublist d.1 pre := by
  unfold flushIfNonempty
  split
  · exact ⟨h1, h2⟩
  · exact sendStep_sublist c p st pre h1 h2

theorem runFrom_sublist_inv (c : Nat → Option String) (p : Bool) :
    ∀ (evs : List ChanEvent) (aw : Bool) (st : DispatchState) (pre : List DataDogLog),
      List.Sublist (successBatches st.deliveries ++ st.store) pre →
      (∀ d ∈ st.deliveries, List.Sublist d.1 pre) →
      (List.Sublist (successBatches (runFrom c p aw st evs).deliveries
          ++ (runFrom c p aw st evs).store) (pre ++ arrivals evs)
        ∧ ∀ d ∈ (runFrom c p aw st evs).deliveries,
            List.Sublist d.1 (pre ++ arrivals evs)) := by
  intro evs
  induction evs with
  | nil =>
      intro aw st pre h1 h2
      have hres := flushIfNonempty_sublist c p st pre h1 h2
      cases aw <;>
        · simp only [runFrom, pushLen_store, pushLen_deliveries, arrivals, List.append_nil]
          exact hres
  | cons e rest ih =>
      intro aw st pre h1 h2
      cases aw with
      | false =>
          cases e with
          | msg m =>
              have h1m : List.Sublist
                  (successBatches st.deliveries ++ (st.store ++ [m])) (pre ++ [m]) := by
                rw [← List.append_assoc]
                exact h1.append (List.Sublist.refl [m])
              have h2m : ∀ d ∈ st.deliveries, List.Sublist d.1 (pre ++ [m]) :=
                fun d hd => (h2 d hd).trans (List.sublist_append_left pre [m])
              have harr : pre ++ arrivals (ChanEvent.msg m :: rest)
                  = (pre ++ [m]) ++ arrivals rest := by
                simp [arrivals]
              by_cases hlt : st.store.length < 50
              · have hstep : runFrom c p false st (ChanEvent.msg m :: rest)
                    = runFrom c p false (pushLen { st with store := st.store ++ [m] }) rest := by
                  simp [runFrom, hlt]
                rw [hstep, harr]
                exact ih false (pushLen { st with store := st.store ++ [m] }) (pre ++ [m])
                  (by simpa [pushLen] using h1m) (by simpa [pushLen] using h2m)
              · have hstep : runFrom c p false st (ChanEvent.msg m :: rest)
                    = runFrom c p false
                        (pushLen (sendStep c p { st with store := st.store ++ [m] })) rest := by
                  simp [runFrom, hlt]
                rw [hstep, harr]
                have hsend := sendStep_sublist c p { st with store := st.store ++ [m] }
                  (pre ++ [m]) (by simpa using h1m) (by simpa using h2m)
                exact ih false _ (pre ++ [m])
                  (by simpa [pushLen] using hsend.1) (by simpa [pushLen] using hsend.2)
          | empty =>
              have hstep : runFrom c p false st (ChanEvent.empty :: rest)
                  = runFrom c p true (pushLen (flushIfNonempty c p st)) rest := rfl
              have harr : pre ++ arrivals (ChanEvent.empty :: rest)
                  = pre ++ arrivals rest := by simp [arrivals]
              rw [hstep, harr]
              have hres := flushIfNonempty_sublist c p st pre h1 h2
              exact ih true (pushLen (flushIfNonempty c p st)) pre
                (by simpa [pushLen] using hres.1) (by simpa [pushLen] using hres.2)
      | true =>
          cases e with
          | msg m =>
              have hstep : runFrom c p true st (ChanEvent.msg m :: rest)
                  = runFrom c p false { st with discarded := st.discarded ++ [m] } rest := rfl
              rw [hstep]
              have hres := ih false { st with discarded := st.discarded ++ [m] } pre
                (by simpa using h1) (by simpa using h2)
              have hmono : List.Sublist (pre ++ arrivals rest)
                  (pre ++ arrivals (ChanEvent.msg m :: rest)) := by
                simp only [arrivals]
                exact (List.Sublist.refl pre).append
                  (List.sublist_cons_self m (arrivals rest))
              exact ⟨hres.1.trans hmono, fun d hd => (hres.2 d hd).trans hmono⟩
          | empty =>
              have hstep : runFrom c p true st (ChanEvent.empty :: rest)
                  = runFrom c p true st rest := rfl
              have harr : pre ++ arrivals (ChanEvent.empty :: rest)
                  = pre ++ arrivals rest := by simp [arrivals]
              rw [hstep, harr]
              exact ih true st pre h1 h2

theorem trySend_error_fst {α : Type} (c : Chan α) (a : α) (e : TrySendError)
    (h : (c.trySend a).2 = some e) : (c.trySend a).1 = c := by
  unfold Chan.trySend at h ⊢
  by_cases h1 : !c.connected
  · simp [h1]
  · by_cases h2 : c.isFull
    · simp [h1, h2]
    · simp [h1, h2] at h

theorem sendStep_store_err (c : Nat → Option String) (p : Bool) (st : DispatchState)
    (e : String) (h : c st.attempts = some e) : (sendStep c p st).store = st.store := by
  unfold sendStep
  rw [h]

/-! Claim theorems. -/

/-- C1: for every message and level, log() is a total state transformer
that performs no delivery and never yields an error; when the non-blocking
enqueue fails, the failed channel is returned unchanged, so every
previously enqueued record remains queued, the stringified enqueue error is
offered with try_send to the Self-Log Channel when it is present, and when
it is absent nothing else happens (the record is silently dropped). -/
theorem C1_log_enqueue_failure (s : DataDogLogger) (m : String) (lvl : DataDogLogLevel)
    (ch : Chan ConstructedLog) (e : TrySendError)
    (hs : s.logsender = some ch)
    (he : (ch.trySend (mkLog s.config m lvl)).2 = some e) :
    (s.log m lvl).logsender = some ch
    ∧ (∀ slch, s.selflogsd = some slch →
        (s.log m lvl).selflogsd = some (slch.trySend e.toText).1)
    ∧ (s.selflogsd = none → (s.log m lvl).selflogsd = none) := by
  have hfst : (ch.trySend (mkLog s.config m lvl)).1 = ch := trySend_error_fst _ _ _ he
  unfold DataDogLogger.log
  rw [hs]
  simp only [he, hfst]
  cases hsl : s.selflogsd <;> simp [hsl]

/-- C1 witness: with a capacity-2 bounded channel and self-log enabled,
after enqueuing A and B the third log() call fails with Full, records A and
B remain queued, and the self-log queue holds exactly the stringified
error. -/
theorem C1_witness :
    loggerAB.logsender = some chanAB
    ∧ (chanAB.trySend (mkLog loggerAB.config "C" DataDogLogLevel.info)).2
        = some TrySendError.full
    ∧ (loggerAB.log "C" DataDogLogLevel.info).logsender = some chanAB
    ∧ (loggerAB.log "C" DataDogLogLevel.info).selflogsd
        = some { cap := some 100, queue := ["sending on a full channel"],
                 connected := true } := by
  refine ⟨by decide, by decide, ?_, ?_⟩
  · exact (C1_log_enqueue_failure loggerAB "C" DataDogLogLevel.info chanAB
      TrySendError.full (by decide) (by decide)).1
  · have h := (C1_log_enqueue_failure loggerAB "C" DataDogLogLevel.info chanAB
      TrySendError.full (by decide) (by decide)).2.1
      { cap := some 100, queue := [], connected := true } (by decide)
    rw [h]
    rfl

/-- C6: whenever the dispatcher observes Empty while holding a non-empty
batch, the very next delivery attempt it records is of exactly that batch,
and it happens before the suspension on the channel, hence before anything
that later processing can deliver. -/
theorem C6_idle_flush_before_suspend (c : Nat → Option String) (p : Bool)
    (st : DispatchState) (rest : List ChanEvent) (h : st.store ≠ []) :
    ∃ ok t, (runFrom c p false st (ChanEvent.empty :: rest)).deliveries
      = st.deliveries ++ (st.store, ok) :: t := by
  have hstep : runFrom c p false st (ChanEvent.empty :: rest)
      = runFrom c p true (pushLen (flushIfNonempty c p st)) rest := rfl
  have hflush : flushIfNonempty c p st = sendStep c p st := by
    unfold flushIfNonempty
    simp [h]
  obtain ⟨t, ht⟩ := runFrom_deliveries_mono c p rest true (pushLen (flushIfNonempty c p st))
  refine ⟨(c st.attempts).isNone, t, ?_⟩
  rw [hstep, ht, pushLen_deliveries, hflush, sendStep_deliveries]
  simp

/-- C6 witness: a dispatcher holding the single record logA and observing
an empty channel records the delivery attempt of [logA] first. -/
theorem C6_witness :
    ∃ ok t, (runFrom alwaysOk true false stC6 [ChanEvent.empty]).deliveries
      = stC6.deliveries ++ (stC6.store, ok) :: t :=
  C6_idle_flush_before_suspend alwaysOk true stC6 [] (by decide)

/-- C7: for every client behavior and every channel observation trace, the
concatenation of the successfully delivered batches is an order-preserving
subsequence of the records in enqueue order, and every batch handed to a
delivery attempt is itself an order-preserving subsequence of the enqueue
order: no record is reordered inside a batch or across batch boundaries. -/
theorem C7_deliveries_in_enqueue_order (c : Nat → Option String) (p : Bool)
    (evs : List ChanEvent) :
    List.Sublist (successBatches (runFrom c p false initDispatch evs).deliveries)
      (arrivals evs)
    ∧ ∀ d ∈ (runFrom c p false initDispatch evs).deliveries,
        List.Sublist d.1 (arrivals evs) := by
  have h := runFrom_sublist_inv c p evs false initDispatch []
    (by simp [initDispatch, successBatches]) (by simp [initDispatch])
  simp only [List.nil_append] at h
  exact ⟨(List.sublist_append_left _ _).trans h.1, h.2⟩

/-- C7 witness: on a concrete trace, the successfully delivered records
form a subsequence of the enqueue order, and the concrete batch of the one
delivery attempt does as well. -/
theorem C7_witness :
    List.Sublist
      (successBatches (runFrom alwaysOk true false initDispatch traceC7).deliveries)
      (arrivals traceC7)
    ∧ List.Sublist ([logA] : List DataDogLog) (arrivals traceC7) := by
  have h := C7_deliveries_in_enqueue_order alwaysOk true traceC7
  exact ⟨h.1, h.2 ([logA], true) (by decide)⟩

/-- C8: destroying the facade first closes the producer channel and only
then, exactly when a dispatcher thread handle is held, joins that thread;
the blocking constructor holds a handle and the non-blocking one does not;
the outcome of Drop does not depend on whether the join succeeds (the join
error is swallowed); and after Drop the producer sender is gone. -/
theorem C8_drop_semantics (cfg : DataDogConfig) (j1 j2 : Bool) (s : DataDogLogger) :
    ((DataDogLogger.blocking cfg).dropRun j1).2
      = [DropAction.closeProducerChannel, DropAction.joinDispatcherThread]
    ∧ ((DataDogLogger.non_blocking_cold cfg).dropRun j1).2
        = [DropAction.closeProducerChannel]
    ∧ s.dropRun j1 = s.dropRun j2
    ∧ ((s.dropRun j1).1).logsender = none := by
  refine ⟨rfl, rfl, rfl, ?_⟩
  unfold DataDogLogger.dropRun
  split <;> rfl

/-- C9: the record literal in log() merges per-call message and level with
the configured tags, source, host and service, defaulting absent service
and hostname to the empty string; but it assigns only six fields, while
struct DataDogLog declares eight: the mandatory trace_id and span_id fields
(serialized as dd.trace_id and dd.span_id) are missing from the literal, so
the construction does not produce the full wire shape the claim states. -/
theorem C9_record_shape (cfg : DataDogConfig) (m : String) (lvl : DataDogLogLevel) :
    ((mkLog cfg m lvl).message = m
      ∧ (mkLog cfg m lvl).ddtags = cfg.tags
      ∧ (mkLog cfg m lvl).service = cfg.service.getD ""
      ∧ (mkLog cfg m lvl).host = cfg.hostname.getD ""
      ∧ (mkLog cfg m lvl).ddsource = cfg.source
      ∧ (mkLog cfg m lvl).level = lvl.toText)
    ∧ ("trace_id" ∈ dataDogLogStructFields ∧ "span_id" ∈ dataDogLogStructFields)
    ∧ ("trace_id" ∉ logLiteralFields ∧ "span_id" ∉ logLiteralFields)
    ∧ logLiteralFields.length + 2 = dataDogLogStructFields.length
    ∧ logLiteralFields.all (fun f => dataDogLogStructFields.contains f) = true :=
  ⟨⟨rfl, rfl, rfl, rfl, rfl, rfl⟩, by decide, by decide, by decide, by decide⟩

/-- C10: when a delivery attempt fails, the batch afterwards is exactly the
batch before, in the same order; when it succeeds the batch is cleared; and
these are the only two behaviors, so records leave the batch only through
the clear that follows a successful delivery. -/
theorem C10_batch_retained_on_failure (e : String) (logs bs : List DataDogLog)
    (sl sl2 sl3 : Option (Chan String)) :
    (send (some e) logs sl).logs = logs
    ∧ (send none bs sl2).logs = []
    ∧ ∀ r : Option String,
        (send r logs sl3).logs = logs ∨ ((send r logs sl3).logs = [] ∧ r = none) := by
  refine ⟨?_, rfl, ?_⟩
  · cases sl <;> rfl
  · intro r
    cases r with
    | none => exact Or.inr ⟨rfl, rfl⟩
    | some e2 => cases sl3 <;> exact Or.inl rfl

/-- C2 counterexample: fed 51 back-to-back records with every delivery
succeeding, the dispatcher performs exactly one delivery, of a batch of 51
records, and no delivered batch has length 50: the claimed flush at batch
length 50 does not happen. -/
theorem C2_counterexample :
    ((runFrom alwaysOk true false initDispatch (msgsN 51)).deliveries.map
        (fun d => (d.1.length, d.2)) = [(51, true)])
    ∧ ((runFrom alwaysOk true false initDispatch (msgsN 51)).deliveries.all
        (fun d => d.1.length != 50)) = true :=
  ⟨by decide, by decide⟩

/-- C2 amended: a record obtained when the batch already holds 50 records
is appended and the resulting 51-record batch is delivered immediately, so
a dispatcher fed 51 records with no idle gaps performs exactly one delivery
attempt, of all 51 records in order; on success the batch is cleared before
further records are accepted, on failure the batch is retained. -/
theorem C2_amended_flush_at_51 (c : Nat → Option String) (p : Bool)
    (rs : List DataDogLog) (rest : List ChanEvent) (h : rs.length = 51) :
    ∃ st1 : DispatchState,
      runFrom c p false initDispatch (List.map ChanEvent.msg rs ++ rest)
        = runFrom c p false st1 rest
      ∧ st1.deliveries = [(rs, (c 0).isNone)]
      ∧ (c 0 = none → st1.store = [])
      ∧ (∀ e, c 0 = some e → st1.store = rs) := by
  obtain ⟨r, hr⟩ : ∃ r, rs.drop 50 = [r] :=
    List.length_eq_one.mp (by simp [h])
  have hsplit : rs.take 50 ++ [r] = rs := by
    rw [← hr]
    exact List.take_append_drop 50 rs
  have htake : (rs.take 50).length = 50 := by simp [h]
  have hmap : List.map ChanEvent.msg rs ++ rest
      = List.map ChanEvent.msg (rs.take 50) ++ (ChanEvent.msg r :: rest) := by
    conv_lhs => rw [← hsplit]
    simp
  obtain ⟨hist, hfeed⟩ := runFrom_feed c p (rs.take 50) initDispatch
    (ChanEvent.msg r :: rest) (by simp [initDispatch, htake])
  have hst : ({ initDispatch with
                store := initDispatch.store ++ rs.take 50
                lenHistory := hist } : DispatchState)
      = { store := rs.take 50, deliveries := [], discarded := [], diags := [],
          attempts := 0, lenHistory := hist } := by
    simp [initDispatch]
  rw [hmap, hfeed, hst]
  have hnlt : ¬ (rs.take 50).length < 50 := by omega
  have hstep : runFrom c p false
      ({ store := rs.take 50, deliveries := [], discarded := [], diags := [],
         attempts := 0, lenHistory := hist } : DispatchState)
      (ChanEvent.msg r :: rest)
      = runFrom c p false
          (pushLen (sendStep c p
            { store := rs, deliveries := [], discarded := [], diags := [],
              attempts := 0, lenHistory := hist })) rest := by
    simp only [runFrom, hnlt, if_false]
    rw [hsplit]
  rw [hstep]
  refine ⟨_, rfl, ?_, ?_, ?_⟩
  · rw [pushLen_deliveries, sendStep_deliveries]
    simp
  · intro hc
    rw [pushLen_store, sendStep_store_ok _ _ _ hc]
  · intro e hc
    rw [pushLen_store, sendStep_store_err _ _ _ e hc]

/-- C2 witness: 51 concrete records fed with no idle gaps and a succeeding
client give exactly one delivery, of all 51 records, with the batch cleared
afterwards. -/
theorem C2_witness :
    ∃ st1 : DispatchState,
      runFrom alwaysOk true false initDispatch
          (List.map ChanEvent.msg (List.replicate 51 (sampleLog "m")) ++ [])
        = runFrom alwaysOk true false st1 []
      ∧ st1.deliveries = [(List.replicate 51 (sampleLog "m"), (alwaysOk 0).isNone)]
      ∧ (alwaysOk 0 = none → st1.store = [])
      ∧ (∀ e, alwaysOk 0 = some e → st1.store = List.replicate 51 (sampleLog "m")) :=
  C2_amended_flush_at_51 alwaysOk true (List.replicate 51 (sampleLog "m")) []
    (by decide)

/-- C3 counterexample: with a client whose delivery attempts fail, after
the dispatch-loop iteration that handles the 51st back-to-back record the
batch holds 51 records, exceeding the claimed bound of 50. -/
theorem C3_counterexample :
    51 ∈ (runFrom alwaysFail true false initDispatch (msgsN 51)).lenHistory
    ∧ ¬ 51 ≤ 50 :=
  ⟨by decide, by decide⟩

/-- C3 amended: as long as every delivery attempt succeeds, the batch
length at the end of every dispatch-loop iteration is at most 50 (within
the flushing iteration it reaches 51, and the delivered batch has 51
records); when a delivery attempt fails the batch is retained and its
length can exceed the threshold. -/
theorem C3_amended_bound_under_success (p : Bool) (evs : List ChanEvent) :
    ∀ n ∈ (runFrom alwaysOk p false initDispatch evs).lenHistory, n ≤ 50 :=
  runFrom_lenHistory_inv p evs false initDispatch (by simp [initDispatch])
    (by simp [initDispatch])

/-- C3 witness: on a concrete 50-record trace with a succeeding client, 50
is an iteration-end batch length and the amended bound applies to it. -/
theorem C3_amended_witness :
    50 ∈ (runFrom alwaysOk true false initDispatch (msgsN 50)).lenHistory
    ∧ 50 ≤ 50 :=
  ⟨by decide, C3_amended_bound_under_success true (msgsN 50) 50 (by decide)⟩

/-- C4: on the trace where A arrives, the queue is seen empty, B arrives
and the producer closes, the dispatcher delivers only [A]; the record B,
successfully enqueued before the close, is received and discarded by the
expression binding the awaited peekable stream to the wildcard, so B gets
no delivery attempt, contradicting the drain-on-close property. -/
theorem C4_idle_wait_discards_record :
    (runFrom alwaysOk true false initDispatch traceC4).deliveries = [([logA], true)]
    ∧ (runFrom alwaysOk true false initDispatch traceC4).discarded = [logB]
    ∧ logB ≠ logA :=
  ⟨by decide, by decide, by decide⟩

/-- C5 counterexample: with the self-log channel present and at its
capacity, a failed delivery makes the dispatcher await capacity on the
self-log send; the diagnostic is not discarded and the dispatcher does
wait, contrary to the claimed best-effort discard on full. -/
theorem C5_counterexample :
    (send (some "boom") [logA] (some fullSelfLog)).selfLogAction
      = some SelfLogDelivery.awaitsCapacity
    ∧ (send (some "boom") [logA] (some fullSelfLog)).logs = [logA] :=
  ⟨by decide, by decide⟩

/-- C5 amended: after every delivery attempt, on success the batch is
cleared and the self-log channel is untouched; on failure the batch is
retained and the stringified error is sent to the self-log channel with an
awaiting send whenever the channel is present: when the channel is full the
dispatcher waits for capacity instead of discarding, and only a
disconnected channel drops the diagnostic (the send error is swallowed);
when no self-log channel exists the failure produces no diagnostic. -/
theorem C5_amended_send_behavior (e : String) (logs bs : List DataDogLog)
    (ch : Chan String) :
    ((send none bs (some ch)).logs = []
      ∧ (send none bs (some ch)).selfLogAction = none)
    ∧ ((send (some e) logs (some ch)).logs = logs
      ∧ (send (some e) logs (some ch)).selfLogAction = some (sendAsyncSelfLog ch e))
    ∧ (ch.connected = true → ch.isFull = true →
        sendAsyncSelfLog ch e = SelfLogDelivery.awaitsCapacity)
    ∧ (ch.connected = false →
        sendAsyncSelfLog ch e = SelfLogDelivery.droppedDisconnected)
    ∧ ((send (some e) logs none).logs = logs
      ∧ (send (some e) logs none).selfLogAction = none) := by
  refine ⟨⟨rfl, rfl⟩, ⟨rfl, rfl⟩, ?_, ?_, rfl, rfl⟩
  · intro hc hf
    unfold sendAsyncSelfLog
    simp [hc, hf]
  · intro hc
    unfold sendAsyncSelfLog
    simp [hc]

/-- C5 witness: at a concrete full, connected self-log channel, a failed
delivery keeps the batch and the self-log send awaits capacity. -/
theorem C5_amended_witness :
    (send (some "boom") [logA] (some fullSelfLog)).logs = [logA]
    ∧ sendAsyncSelfLog fullSelfLog "boom" = SelfLogDelivery.awaitsCapacity := by
  have h := C5_amended_send_behavior "boom" [logA] [logA] fullSelfLog
  exact ⟨h.2.1.1, h.2.2.1 (by decide) (by decide)⟩

end DatadogLogs
